import Mathlib

/-!
# Verification of the VOLEX gesture-driven voxel editor core

Shallow embedding of `src/script.js` (classes `GestureRecognizer` and
`VoxelWorld`, and the frame handler `handleInteraction`), together with
proofs settling the frozen claims about the natural-language specification.

Modelling conventions:
* JavaScript numbers are modelled as rationals (`ℚ`) for all coordinates,
  timers and thresholds; the only irrational operation of the source,
  `Math.sqrt` inside the Euclidean distance, lands in `ℝ`.
* A JS `Map` keyed by the string `"x,y,z"` is modelled as an association
  list keyed by the coordinate triple itself: the decimal rendering of a
  number triple is injective, so the string key and the triple carry the
  same information.  `Map.set` / `Map.delete` / `Map.has` / `Map.get`
  become `setKey` / `deleteKey` / `hasKey` / `findVal`.
* DOM, logging, animation and rendering statements are side effects with
  no bearing on the program state the claims speak about; they are
  omitted.
-/

namespace Volex

/-- A 3-dimensional point with rational coordinates (a JS `{x, y, z}`
object or a THREE `Vector3`). -/
structure V3 where
  x : ℚ
  y : ℚ
  z : ℚ
deriving DecidableEq, Repr

/-- One detected hand: the indexing function of its landmark array; the
source only ever reads indices `0`–`20` (21 landmarks). -/
def Hand : Type := ℕ → V3

/-- The gesture labels appearing in the source (`'NONE'`, `'UNKNOWN'`,
`'OPEN_PALM'`, ...). -/
inductive Gesture where
  | NONE | UNKNOWN | OPEN_PALM | CLOSED | PINCH | VICTORY | THUMBS_UP
  | SWIPE_LEFT | SWIPE_RIGHT | ZOOM_IN | ZOOM_OUT
deriving DecidableEq, Repr, Fintype

/-- The interaction states of the frame state machine (`interactionState`
in the source). -/
inductive IState where
  | IDLE | DRAW_WAIT | BLOCK_PLACED | UNDO_WAIT | UNDO_COMPLETE
  | ROTATING | ZOOMING
deriving DecidableEq, Repr

/-! ## Association-list model of the JS `Map` holding the voxels -/

/-- `Map.has key` — does the association list bind `k`? -/
def hasKey (l : List (V3 × ℕ)) (k : V3) : Bool :=
  l.any (fun e => e.1 = k)

/-- `Map.get key` — the value bound to `k`, if any. -/
def findVal (l : List (V3 × ℕ)) (k : V3) : Option ℕ :=
  (l.find? (fun e => e.1 = k)).map (·.2)

/-- `Map.set key v` — replace in place if the key exists (JS keeps
insertion order), otherwise append. -/
def setKey (l : List (V3 × ℕ)) (k : V3) (v : ℕ) : List (V3 × ℕ) :=
  if hasKey l k then l.map (fun e => if e.1 = k then (k, v) else e)
  else l ++ [(k, v)]

/-- `Map.delete key` — remove the binding of `k`. -/
def deleteKey (l : List (V3 × ℕ)) (k : V3) : List (V3 × ℕ) :=
  l.filter (fun e => ¬ e.1 = k)

/-! ## Undo log -/

/-- The `type` tag of an entry of `this.history`. -/
inductive AKind where
  | ADD | REMOVE
deriving DecidableEq, Repr

/-- One entry of the undo log.  The source stores both `key` and
`position`; they are always the same triple under our key model, so a
single `key` field carries both. -/
structure UAction where
  kind : AKind
  key : V3
  color : ℕ
deriving DecidableEq, Repr

/-! ## Voxel world state -/

/-- The mutable state of a `VoxelWorld` instance that the claims are
about: the voxel map, the undo log `this.history`, the accumulated
`this.scene.rotation`, the cursor (`this.cursor.position` plus the
`cursorVisible` flag) and the camera's `position.z` (its distance knob
used by the zoom gestures). -/
structure VW where
  voxels : List (V3 × ℕ)
  history : List UAction
  rotation : V3
  cursorVisible : Bool
  cursorPos : V3
  cameraZ : ℚ
deriving DecidableEq, Repr

/-- The color literal `0x00ffff` used for every placed voxel. -/
def cyanColor : ℕ := 0x00ffff

/-- `VoxelWorld.createVoxelAtCursor` (src/script.js:386-425): refuse when
the cursor is invalid or the key is occupied, otherwise insert the voxel,
append an `ADD` action, return `true`. -/
def createVoxelAtCursor (w : VW) : VW × Bool :=
  if w.cursorVisible = false then (w, false)
  else
    let key := w.cursorPos
    if hasKey w.voxels key then (w, false)
    else
      ({ w with
          voxels := setKey w.voxels key cyanColor
          history := w.history ++ [⟨AKind.ADD, key, cyanColor⟩] }, true)

/-- `VoxelWorld.removeVoxelAtCursor` (src/script.js:427-448): when the
cursor is valid and the key occupied, delete the voxel and append a
`REMOVE` action recording its stored color. -/
def removeVoxelAtCursor (w : VW) : VW :=
  if w.cursorVisible = false then w
  else
    let key := w.cursorPos
    match findVal w.voxels key with
    | none => w
    | some c =>
        { w with
            voxels := deleteKey w.voxels key
            history := w.history ++ [⟨AKind.REMOVE, key, c⟩] }

/-- `VoxelWorld.undo` (src/script.js:450-479): pop the most recent action
and invert it (`ADD` → delete that key if present; `REMOVE` → recreate
the voxel at that key with the recorded color). -/
def undo (w : VW) : VW :=
  match w.history.getLast? with
  | none => w
  | some a =>
      let w1 := { w with history := w.history.dropLast }
      match a.kind with
      | AKind.ADD =>
          if hasKey w1.voxels a.key then
            { w1 with voxels := deleteKey w1.voxels a.key }
          else w1
      | AKind.REMOVE =>
          { w1 with voxels := setKey w1.voxels a.key a.color }

/-- `VoxelWorld.reset` (src/script.js:481-492): clear the voxels, clear
the undo log, zero the scene rotation. -/
def reset (w : VW) : VW :=
  { w with voxels := [], history := [], rotation := ⟨0, 0, 0⟩ }

/-- One record of a persisted snapshot (`{x, y, z, color}`); the key
triple plus the stored color. -/
structure SnapEntry where
  pos : V3
  color : ℕ
deriving DecidableEq, Repr

/-- `VoxelWorld.loadFromJSON` (src/script.js:507-528).  The external
`JSON.parse` is modelled by the `Option` argument: `none` is a string
that does not parse (`JSON.parse` throws a `SyntaxError`, which the
enclosing `try` catches — crucially, the throw happens *before* the
`this.reset()` statement, so on `none` nothing in the world changes);
`some data` is a parsed array of records, in which case the world is
reset and every record recreated.  `v.color || 0x00ffff` maps the falsy
color `0` to the default cyan. -/
def loadFromJSON (w : VW) (parsed : Option (List SnapEntry)) : VW :=
  match parsed with
  | none => w
  | some data =>
      data.foldl
        (fun w' e =>
          { w' with
              voxels := setKey w'.voxels e.pos
                (if e.color = 0 then cyanColor else e.color) })
        (reset w)

/-! ## Hand pose classifier (`GestureRecognizer.analyzeHand`,
src/script.js:124-241) -/

/-- The Euclidean distance helper `dist` of `analyzeHand`
(src/script.js:134): `Math.sqrt((p1.x-p2.x)**2 + (p1.y-p2.y)**2 +
(p1.z-p2.z)**2)`. -/
noncomputable def dist (p q : V3) : ℝ :=
  Real.sqrt (((p.x - q.x : ℚ) : ℝ) ^ 2 + ((p.y - q.y : ℚ) : ℝ) ^ 2 +
    ((p.z - q.z : ℚ) : ℝ) ^ 2)

/-- `pinchDist = dist(thumbTip, indexTip)` (src/script.js:137). -/
noncomputable def pinchDist (h : Hand) : ℝ := dist (h 4) (h 8)

/-- `thumbIndexClose = pinchDist < this.pinchThreshold`
(src/script.js:138); the threshold is the default `0.05` or a
personalized value, here a parameter. -/
def thumbIndexClose (h : Hand) (t : ℚ) : Prop := pinchDist h < (t : ℝ)

/-- `middleExtended` (src/script.js:141). -/
def middleExtended (h : Hand) : Prop := dist (h 12) (h 0) > dist (h 9) (h 0) * 1.1

/-- `ringExtended` (src/script.js:142). -/
def ringExtended (h : Hand) : Prop := dist (h 16) (h 0) > dist (h 13) (h 0) * 1.1

/-- `pinkyExtended` (src/script.js:143). -/
def pinkyExtended (h : Hand) : Prop := dist (h 20) (h 0) > dist (h 17) (h 0) * 1.1

/-- `isPinching = thumbIndexClose && middleExtended && ringExtended &&
pinkyExtended` (src/script.js:146-148). -/
def isPinching (h : Hand) (t : ℚ) : Prop :=
  thumbIndexClose h t ∧ middleExtended h ∧ ringExtended h ∧ pinkyExtended h

/-- `indexCurled` (src/script.js:152); `palmBase` is landmark 0, the
wrist, and `curlFactor` is `1.3`. -/
def indexCurled (h : Hand) : Prop := dist (h 8) (h 0) < dist (h 5) (h 0) * 1.3

/-- `middleCurled` (src/script.js:153). -/
def middleCurled (h : Hand) : Prop := dist (h 12) (h 0) < dist (h 9) (h 0) * 1.3

/-- `ringCurled` (src/script.js:154). -/
def ringCurled (h : Hand) : Prop := dist (h 16) (h 0) < dist (h 13) (h 0) * 1.3

/-- `pinkyCurled` (src/script.js:155). -/
def pinkyCurled (h : Hand) : Prop := dist (h 20) (h 0) < dist (h 17) (h 0) * 1.3

/-- `thumbCurled` (src/script.js:159). -/
def thumbCurled (h : Hand) : Prop := dist (h 4) (h 0) < dist (h 2) (h 0) * 1.4

/-- `isFist = curledCount === 4 && thumbCurled` (src/script.js:158-160):
`curledCount === 4` says all four finger-curl booleans hold. -/
def isFist (h : Hand) : Prop :=
  indexCurled h ∧ middleCurled h ∧ ringCurled h ∧ pinkyCurled h ∧ thumbCurled h

/-- `victoryCondition` (src/script.js:163-166). -/
def victoryCondition (h : Hand) : Prop :=
  ¬ indexCurled h ∧ ¬ middleCurled h ∧ ringCurled h ∧ pinkyCurled h ∧
    ¬ thumbCurled h

/-- `thumbIsUp` (src/script.js:171): thumb tip above the index knuckle
(smaller y) and extended past the thumb base scaled by `1.5`. -/
def thumbIsUp (h : Hand) : Prop :=
  (h 4).y < (h 5).y ∧ dist (h 4) (h 0) > dist (h 2) (h 0) * 1.5

/-- `isThumbsUp = thumbIsUp && curledCount === 4` (src/script.js:172). -/
def isThumbsUp (h : Hand) : Prop :=
  thumbIsUp h ∧ indexCurled h ∧ middleCurled h ∧ ringCurled h ∧ pinkyCurled h

/-- `indexExtended` with `extendFactor = 1.05` (src/script.js:175-176). -/
def indexExtended (h : Hand) : Prop := dist (h 8) (h 0) > dist (h 5) (h 0) * 1.05

/-- `middleExt` (src/script.js:177). -/
def middleExt (h : Hand) : Prop := dist (h 12) (h 0) > dist (h 9) (h 0) * 1.05

/-- `ringExt` (src/script.js:178). -/
def ringExt (h : Hand) : Prop := dist (h 16) (h 0) > dist (h 13) (h 0) * 1.05

/-- `pinkyExt` (src/script.js:179). -/
def pinkyExt (h : Hand) : Prop := dist (h 20) (h 0) > dist (h 17) (h 0) * 1.05

/-- `isOpen = extendedCount >= 3` (src/script.js:181-182): at least three
of the four non-thumb extension booleans hold. -/
def isOpen (h : Hand) : Prop :=
  (indexExtended h ∧ middleExt h ∧ ringExt h) ∨
  (indexExtended h ∧ middleExt h ∧ pinkyExt h) ∨
  (indexExtended h ∧ ringExt h ∧ pinkyExt h) ∨
  (middleExt h ∧ ringExt h ∧ pinkyExt h)

open Classical in
/-- The gesture decision chain of `analyzeHand` (src/script.js:184-198):
`PINCH > THUMBS_UP > VICTORY > CLOSED > OPEN_PALM`, with `OPEN_PALM` also
the fallback for an unmatched pose. -/
noncomputable def analyzeGesture (h : Hand) (t : ℚ) : Gesture :=
  if isPinching h t then Gesture.PINCH
  else if isThumbsUp h then Gesture.THUMBS_UP
  else if victoryCondition h then Gesture.VICTORY
  else if isFist h then Gesture.CLOSED
  else if isOpen h then Gesture.OPEN_PALM
  else Gesture.OPEN_PALM

/-- Scaling every landmark coordinate of a hand by a factor `c`. -/
def scaleHand (c : ℚ) (h : Hand) : Hand :=
  fun i => ⟨c * (h i).x, c * (h i).y, c * (h i).z⟩

/-! ## Pinch-center smoothing (`analyzeHand`, src/script.js:215-232)

The position buffer `this.positionBuffer` lives on the recognizer
*instance*, not on the hand: every call of `analyzeHand` pushes the
current hand's raw pinch midpoint into that one buffer (capacity 5,
FIFO) and returns the arithmetic mean of the buffer as the smoothed
`pinchCenter`. -/

/-- `rawPinchCenter` — the thumb-tip/index-tip midpoint
(src/script.js:216-220). -/
def rawPinchCenter (h : Hand) : V3 :=
  ⟨((h 4).x + (h 8).x) / 2, ((h 4).y + (h 8).y) / 2, ((h 4).z + (h 8).z) / 2⟩

/-- The arithmetic mean of a position buffer (src/script.js:228-232):
each coordinate is a `reduce`-sum divided by the buffer length. -/
def meanV (l : List V3) : V3 :=
  ⟨(l.foldl (fun s p => s + p.x) 0) / l.length,
   (l.foldl (fun s p => s + p.y) 0) / l.length,
   (l.foldl (fun s p => s + p.z) 0) / l.length⟩

/-- One execution of the buffer update of `analyzeHand`
(src/script.js:222-232): push the raw pinch center, drop the oldest
entry when the buffer exceeds its capacity 5, return the new buffer and
the smoothed (mean) pinch center. -/
def pinchStep (buf : List V3) (raw : V3) : List V3 × V3 :=
  let b1 := buf ++ [raw]
  let b2 := if b1.length > 5 then b1.tail else b1
  (b2, meanV b2)

/-! ## Temporal stabilizer and composite detection
(`GestureRecognizer.update`, src/script.js:51-122) -/

/-- The per-instance recognizer state: `this.history` (palm centers, for
swipe detection), `this.gestureHistory` and `this.lastStableGesture`. -/
structure RecState where
  history : List V3
  gestureHistory : List Gesture
  lastStableGesture : Gesture
deriving DecidableEq, Repr

/-- The recognizer state right after construction
(src/script.js:30-41). -/
def initRec : RecState := ⟨[], [], Gesture.NONE⟩

/-- The distinct labels of the buffer in order of first occurrence —
`Object.keys(gestureCounts)` where `gestureCounts` is built by a
`forEach` over the buffer (src/script.js:105-108). -/
def gestureKeys (gh : List Gesture) : List Gesture :=
  gh.foldl (fun ks g => if g ∈ ks then ks else ks ++ [g]) ([] : List Gesture)

/-- The majority-vote stabilization step (src/script.js:97-121): push the
raw gesture into the capacity-10 FIFO buffer, find the most frequent
label (the `reduce` keeps the earlier key on a strictly greater count
and otherwise moves to the later key), and adopt it as the stable output
only when its frequency is at least 60% of the buffer length. -/
def stabilize (st : RecState) (g : Gesture) : Gesture × RecState :=
  let gh1 := st.gestureHistory ++ [g]
  let gh := if gh1.length > 10 then gh1.tail else gh1
  let most :=
    match gestureKeys gh with
    | [] => g
    | k :: ks => ks.foldl (fun a b => if gh.count a > gh.count b then a else b) k
  let conf : ℚ := (gh.count most : ℚ) / (gh.length : ℚ)
  let stable := if conf ≥ 6 / 10 then most else st.lastStableGesture
  (stable, { st with gestureHistory := gh, lastStableGesture := stable })

/-- Feeding a sequence of raw per-frame gestures through the
stabilizer. -/
def runStab (st : RecState) (gs : List Gesture) : RecState :=
  gs.foldl (fun s g => (stabilize s g).2) st

/-- The sequence of stable outputs emitted while feeding a sequence of
raw gestures through the stabilizer. -/
def stabOutputs (st : RecState) (gs : List Gesture) : List Gesture :=
  (gs.foldl
    (fun (p : RecState × List Gesture) g =>
      ((stabilize p.1 g).2, p.2 ++ [(stabilize p.1 g).1]))
    (st, [])).2

/-- The per-hand analysis data `update` consumes: the gesture label and
the palm center `landmarks[9]` (the classifier's geometric work is
modelled separately by `analyzeGesture`). -/
structure HandA where
  gesture : Gesture
  center : V3
deriving DecidableEq, Repr

/-- `GestureRecognizer.update` (src/script.js:51-122) on the per-hand
analysis results: no hands returns `NONE`; exactly two hands are first
checked for the composite zoom gestures (two fists ⇒ `ZOOM_IN`, fist
plus open palm in either order ⇒ `ZOOM_OUT`), returning without
touching any buffer; otherwise hand 0 is primary: its palm center feeds
the capacity-15 swipe buffer, a full buffer whose horizontal
displacement exceeds `0.05` and twice the vertical displacement yields a
swipe when the raw gesture is `OPEN_PALM`, and otherwise the raw gesture
goes through majority-vote stabilization. -/
def recUpdate (st : RecState) (hands : List HandA) : Gesture × RecState :=
  match hands with
  | [] => (Gesture.NONE, st)
  | h1 :: rest =>
    let zoom : Option Gesture :=
      match rest with
      | [h2] =>
          if h1.gesture = Gesture.CLOSED ∧ h2.gesture = Gesture.CLOSED then
            some Gesture.ZOOM_IN
          else if (h1.gesture = Gesture.CLOSED ∧ h2.gesture = Gesture.OPEN_PALM) ∨
              (h1.gesture = Gesture.OPEN_PALM ∧ h2.gesture = Gesture.CLOSED) then
            some Gesture.ZOOM_OUT
          else none
      | _ => none
    match zoom with
    | some g => (g, st)
    | none =>
      let hist1 := st.history ++ [h1.center]
      let hist := if hist1.length > 15 then hist1.tail else hist1
      let swipe : Option Gesture :=
        if hist.length = 15 then
          match hist.head?, hist.getLast? with
          | some s, some e =>
              let dx := e.x - s.x
              if |dx| > 5 / 100 ∧ |dx| > |e.y - s.y| * 2 then
                if h1.gesture = Gesture.OPEN_PALM then
                  some (if dx > 0 then Gesture.SWIPE_RIGHT else Gesture.SWIPE_LEFT)
                else none
              else none
          | _, _ => none
        else none
      match swipe with
      | some g => (g, { st with history := hist })
      | none => stabilize { st with history := hist } h1.gesture

/-! ## Voxel target resolver — floor branch
(`VoxelWorld.updateCursorFromHand`, src/script.js:353-383)

The raycast geometry itself (camera projection, which object the ray
hits) is external; what the source computes once the ray has missed all
voxels and hit the ground plane is a pure function of the hit point's
planar coordinates and the voxel map, embedded here.  `voxelSize` is
`1`. -/

/-- Membership of a voxel in the `(x, z)` column scanned by the floor
branch — the `Math.abs` tests of src/script.js:367. -/
def inColumn (x z : ℚ) (e : V3 × ℕ) : Prop :=
  |e.1.x - x| < 1 / 100 ∧ |e.1.z - z| < 1 / 100

instance (x z : ℚ) (e : V3 × ℕ) : Decidable (inColumn x z e) :=
  inferInstanceAs (Decidable (_ ∧ _))

/-- The body of the `voxels.forEach` scan of src/script.js:364-373: a
voxel in the column raises the running `maxY` to `pos.y + 1` whenever
its height reaches the running value. -/
def colStep (x z : ℚ) (m : ℚ) (e : V3 × ℕ) : ℚ :=
  if inColumn x z e then (if e.1.y ≥ m then e.1.y + 1 else m) else m

/-- The floor-branch cell computation (src/script.js:355-378): floor-
quantize the hit point to the cell center `⌊p⌋ + 0.5` on both axes, then
scan every voxel of the map with `colStep`, starting from ground level
`0.5`. -/
def floorResolve (voxels : List (V3 × ℕ)) (px pz : ℚ) : V3 :=
  let x : ℚ := ⌊px⌋ + 1 / 2
  let z : ℚ := ⌊pz⌋ + 1 / 2
  let maxY : ℚ := voxels.foldl (colStep x z) (1 / 2)
  ⟨x, maxY, z⟩

/-! ## Interaction state machine (`handleInteraction`,
src/script.js:804-949) -/

/-- The module-level mutable interaction state the frame handler reads
and writes: `interactionState`, the timers (`lastClosedTime`,
`pinchStartTime`, `undoStartTime`, all wall-clock milliseconds), the
`blockPlacedThisPinch` flag, `lastPoint` and `lastGesture`
(src/script.js:14-24). -/
structure AppState where
  interactionState : IState
  lastClosedTime : ℚ
  pinchStartTime : ℚ
  undoStartTime : ℚ
  blockPlacedThisPinch : Bool
  lastPoint : Option (ℚ × ℚ)
  lastGesture : Gesture
deriving DecidableEq, Repr

/-- The effect on the world of `world.updateCursorFromHand(ndcX, ndcY)`
(called at src/script.js:817): the raycast outcome is the external
parameter `cur` — `some p` when the ray resolved a target cell `p` (the
cursor moves there and becomes visible), `none` when it hit nothing (the
cursor is hidden and keeps its position). -/
def applyCursor (w : VW) (cur : Option V3) : VW :=
  match cur with
  | some p => { w with cursorPos := p, cursorVisible := true }
  | none => { w with cursorVisible := false }

/-- Phase 4 of `handleInteraction` (src/script.js:871-948): the
state-driven actions of the (possibly just-updated) interaction state,
followed by the closing `lastPoint` / `lastGesture` assignments.  The
rotation sensitivity is `3.5`; the build and undo hold delays are
`2000` ms. -/
def stateActions (w : VW) (app : AppState) (gesture : Gesture)
    (ndc : ℚ × ℚ) (now : ℚ) : VW × AppState :=
  let step : VW × AppState :=
    match app.interactionState with
    | IState.ROTATING =>
        let w2 :=
          match app.lastPoint with
          | some lp =>
              { w with
                  rotation :=
                    ⟨w.rotation.x + (ndc.2 - lp.2) * (7 / 2),
                     w.rotation.y + (ndc.1 - lp.1) * (7 / 2),
                     w.rotation.z⟩ }
          | none => w
        (w2, { app with lastClosedTime := now })
    | IState.DRAW_WAIT =>
        if now - app.pinchStartTime > 2000 ∧ app.blockPlacedThisPinch = false then
          match createVoxelAtCursor w with
          | (w2, true) =>
              (w2, { app with blockPlacedThisPinch := true,
                              interactionState := IState.BLOCK_PLACED })
          | (w2, false) => (w2, app)
        else (w, app)
    | IState.BLOCK_PLACED => (w, app)
    | IState.UNDO_WAIT =>
        if now - app.undoStartTime > 2000 then
          (undo w, { app with interactionState := IState.UNDO_COMPLETE })
        else (w, app)
    | IState.UNDO_COMPLETE => (w, app)
    | IState.IDLE => (w, app)
    | IState.ZOOMING => (w, app)
  (step.1, { step.2 with lastPoint := some ndc, lastGesture := gesture })

/-- `handleInteraction` (src/script.js:804-949).  Inputs per frame: the
stabilized gesture, the pointer in normalized device coordinates `ndc`
(computed at src/script.js:813-814 from the hand point), the raycast
outcome `cur` for the cursor update, and the wall clock `now`.  The
two zoom gestures adjust the camera distance by `0.2` clamped to
`[2, 20]`, set the state to `ZOOMING` and return at once; `CLOSED`
enters/continues `ROTATING` and hides the cursor; `PINCH` coming from
`ROTATING`/`ZOOMING` returns untouched within the 300 ms debounce of
`lastClosedTime` and otherwise drops to `IDLE` before entering
`DRAW_WAIT`; `VICTORY` enters `UNDO_WAIT`; anything else resets to
`IDLE`.  Phase 4 (`stateActions`) then runs the current state's
action. -/
def handleInteraction (w : VW) (app : AppState) (gesture : Gesture)
    (ndc : ℚ × ℚ) (cur : Option V3) (now : ℚ) : VW × AppState :=
  let w1 := applyCursor w cur
  if gesture = Gesture.ZOOM_IN then
    ({ w1 with cameraZ := max 2 (w1.cameraZ - 2 / 10) },
     { app with interactionState := IState.ZOOMING })
  else if gesture = Gesture.ZOOM_OUT then
    ({ w1 with cameraZ := min 20 (w1.cameraZ + 2 / 10) },
     { app with interactionState := IState.ZOOMING })
  else if gesture = Gesture.CLOSED then
    let app1 :=
      if app.interactionState ≠ IState.ROTATING then
        { app with interactionState := IState.ROTATING, lastPoint := some ndc }
      else app
    let w2 := { w1 with cursorVisible := false }
    stateActions w2 app1 gesture ndc now
  else if gesture = Gesture.PINCH then
    if app.interactionState = IState.ROTATING ∨
        app.interactionState = IState.ZOOMING then
      if now - app.lastClosedTime < 300 then (w1, app)
      else
        let app1 := { app with interactionState := IState.IDLE }
        let app2 :=
          if app1.interactionState ≠ IState.DRAW_WAIT ∧
              app1.interactionState ≠ IState.BLOCK_PLACED then
            { app1 with interactionState := IState.DRAW_WAIT,
                        pinchStartTime := now, blockPlacedThisPinch := false }
          else app1
        stateActions w1 app2 gesture ndc now
    else
      let app2 :=
        if app.interactionState ≠ IState.DRAW_WAIT ∧
            app.interactionState ≠ IState.BLOCK_PLACED then
          { app with interactionState := IState.DRAW_WAIT,
                     pinchStartTime := now, blockPlacedThisPinch := false }
        else app
      stateActions w1 app2 gesture ndc now
  else if gesture = Gesture.VICTORY then
    let app2 :=
      if app.interactionState ≠ IState.UNDO_WAIT ∧
          app.interactionState ≠ IState.UNDO_COMPLETE then
        { app with interactionState := IState.UNDO_WAIT, undoStartTime := now }
      else app
    stateActions w1 app2 gesture ndc now
  else
    let app2 := { app with interactionState := IState.IDLE,
                           blockPlacedThisPinch := false }
    stateActions w1 app2 gesture ndc now

/-! ## Supporting lemmas -/

/-- The 60% confidence test over `ℚ` agrees with its integer form. -/
theorem confidence_iff (count len : ℕ) (hl : 0 < len) :
    ((count : ℚ) / (len : ℚ) ≥ 6 / 10) ↔ 10 * count ≥ 6 * len := by
  rw [ge_iff_le, div_le_div_iff₀ (by norm_num) (by exact_mod_cast hl)]
  constructor
  · intro h
    have h2 : (6 * len : ℚ) ≤ (10 * count : ℚ) := by linarith
    exact_mod_cast h2
  · intro h
    have h2 : (6 * len : ℚ) ≤ (10 * count : ℚ) := by exact_mod_cast h
    linarith

theorem gestureKeys_absorb (a : Gesture) (n : ℕ) :
    ∀ acc : List Gesture, a ∈ acc →
      (List.replicate n a).foldl
        (fun ks g => if g ∈ ks then ks else ks ++ [g]) acc = acc := by
  induction n with
  | zero => intro acc _; rfl
  | succ m ih =>
      intro acc ha
      rw [List.replicate_succ, List.foldl_cons, if_pos ha]
      exact ih acc ha

/-- The key list of a uniform nonempty buffer is the singleton. -/
theorem gestureKeys_replicate (a : Gesture) (n : ℕ) (hn : n ≠ 0) :
    gestureKeys (List.replicate n a) = [a] := by
  obtain ⟨m, rfl⟩ := Nat.exists_eq_succ_of_ne_zero hn
  rw [gestureKeys, List.replicate_succ, List.foldl_cons]
  have h1 : (if a ∈ ([] : List Gesture) then ([] : List Gesture) else [] ++ [a]) = [a] := by
    simp
  rw [h1]
  exact gestureKeys_absorb a m [a] (by simp)

/-- Explicit characterization of one `stabilize` step: naming the new
buffer, the most-frequent label and the emitted stable label turns the
`let` chain into hypotheses that can be discharged one at a time. -/
theorem stabilize_spec (h : List V3) (buf : List Gesture) (s g : Gesture)
    (gh : List Gesture) (M stable : Gesture)
    (hgh : gh = if (buf ++ [g]).length > 10 then (buf ++ [g]).tail
      else buf ++ [g])
    (hM : M = match gestureKeys gh with
      | [] => g
      | k :: ks =>
          ks.foldl (fun a b => if gh.count a > gh.count b then a else b) k)
    (hstable : stable =
      if ((gh.count M : ℚ) / (gh.length : ℚ) ≥ 6 / 10) then M else s) :
    stabilize ⟨h, buf, s⟩ g = (stable, ⟨h, gh, stable⟩) := by
  subst hgh
  subst hM
  subst hstable
  rfl

/-- Feeding one more copy of `a` to a uniform buffer of at most 9 copies
of `a`: the buffer grows by one and `a` is adopted as stable (its
confidence is 100%). -/
theorem stabilize_uniform (h : List V3) (s a : Gesture) (k : ℕ) (hk : k ≤ 9) :
    stabilize ⟨h, List.replicate k a, s⟩ a =
      (a, ⟨h, List.replicate (k + 1) a, a⟩) := by
  have hgh : List.replicate (k + 1) a =
      if (List.replicate k a ++ [a]).length > 10 then
        (List.replicate k a ++ [a]).tail
      else List.replicate k a ++ [a] := by
    rw [← List.replicate_succ' k a, if_neg]
    simp only [List.length_replicate]
    omega
  have hM : a = match gestureKeys (List.replicate (k + 1) a) with
      | [] => a
      | p :: ps =>
          ps.foldl (fun x y =>
            if (List.replicate (k + 1) a).count x >
                (List.replicate (k + 1) a).count y then x else y) p := by
    rw [gestureKeys_replicate a (k + 1) (by omega)]
    rfl
  have hs : a = if (((List.replicate (k + 1) a).count a : ℚ) /
      ((List.replicate (k + 1) a).length : ℚ) ≥ 6 / 10) then a else s := by
    rw [if_pos]
    rw [confidence_iff _ _ (by simp)]
    simp only [List.count_replicate_self, List.length_replicate]
    omega
  exact stabilize_spec h (List.replicate k a) s a
    (List.replicate (k + 1) a) a a hgh hM hs

/-- One stabilizer step from a full (length-10) buffer whose stable
label is `C`: if every label other than `C` occurs at most 5 times in
the new buffer, the emitted stable label is still `C` (a label needs 6
of 10 to be adopted). -/
theorem stabilize_keep (h : List V3) (buf : List Gesture) (C g : Gesture)
    (hlen : buf.length = 10)
    (hcount : ∀ X, X ≠ C → (buf.tail ++ [g]).count X ≤ 5) :
    stabilize ⟨h, buf, C⟩ g = (C, ⟨h, buf.tail ++ [g], C⟩) := by
  have hne : buf ≠ [] := by
    intro hb
    rw [hb] at hlen
    simp at hlen
  have htail : (buf ++ [g]).tail = buf.tail ++ [g] := by
    cases buf with
    | nil => exact absurd rfl hne
    | cons b bs => rfl
  have hlen2 : (buf.tail ++ [g]).length = 10 := by
    rw [List.length_append, List.length_tail, hlen]
    rfl
  have hgh : buf.tail ++ [g] =
      if (buf ++ [g]).length > 10 then (buf ++ [g]).tail else buf ++ [g] := by
    rw [if_pos (by simp [hlen]), htail]
  set M := (match gestureKeys (buf.tail ++ [g]) with
    | [] => g
    | k :: ks =>
        ks.foldl (fun x y =>
          if (buf.tail ++ [g]).count x > (buf.tail ++ [g]).count y then x
          else y) k) with hM
  have hs : C = if (((buf.tail ++ [g]).count M : ℚ) /
      (((buf.tail ++ [g]).length : ℕ) : ℚ) ≥ 6 / 10) then M else C := by
    by_cases hc : (((buf.tail ++ [g]).count M : ℚ) /
        (((buf.tail ++ [g]).length : ℕ) : ℚ) ≥ 6 / 10)
    · rw [if_pos hc]
      rw [confidence_iff _ _ (by rw [hlen2]; omega)] at hc
      by_contra hMC
      have h5 := hcount M (fun hXC => hMC hXC.symm)
      rw [hlen2] at hc
      omega
    · rw [if_neg hc]
  exact stabilize_spec h buf C g (buf.tail ++ [g]) M C hgh hM hs

theorem stabOutputs_go (gs : List Gesture) :
    ∀ (st : RecState) (acc : List Gesture),
      (gs.foldl
        (fun (p : RecState × List Gesture) g =>
          ((stabilize p.1 g).2, p.2 ++ [(stabilize p.1 g).1])) (st, acc)).2 =
      acc ++ (gs.foldl
        (fun (p : RecState × List Gesture) g =>
          ((stabilize p.1 g).2, p.2 ++ [(stabilize p.1 g).1])) (st, [])).2 := by
  induction gs with
  | nil => intro st acc; simp
  | cons g gs ih =>
      intro st acc
      rw [List.foldl_cons, List.foldl_cons]
      rw [ih (stabilize st g).2 (acc ++ [(stabilize st g).1]),
        ih (stabilize st g).2 ([] ++ [(stabilize st g).1])]
      simp

theorem stabOutputs_cons (st : RecState) (g : Gesture) (gs : List Gesture) :
    stabOutputs st (g :: gs) =
      (stabilize st g).1 :: stabOutputs (stabilize st g).2 gs := by
  unfold stabOutputs
  rw [List.foldl_cons, stabOutputs_go gs (stabilize st g).2]
  simp

/-- The count bookkeeping for one retention step: if `X` occurs at most
5 times in the old buffer and remaining feed together, the same holds
for the new buffer (old tail plus fed label) and remaining feed. -/
theorem count_step_bound (X g : Gesture) (buf gs : List Gesture)
    (h1 : buf.count X + (g :: gs).count X ≤ 5) :
    (buf.tail ++ [g]).count X + gs.count X ≤ 5 := by
  have h2 : buf.tail.count X ≤ buf.count X := by
    cases buf with
    | nil => simp
    | cons b bs =>
        simp only [List.tail_cons]
        by_cases hb : X = b
        · subst hb
          rw [List.count_cons_self]
          omega
        · rw [List.count_cons_of_ne hb]
  rw [List.count_append]
  by_cases hg : X = g
  · subst hg
    rw [List.count_cons_self] at h1
    have h3 : List.count X [X] = 1 := by simp
    omega
  · rw [List.count_cons_of_ne hg] at h1
    have h3 : List.count X [g] = 0 := by simp [hg]
    omega

/-- Retention: from a full buffer stabilized on `C`, a feed in which no
other label can ever reach 6 of 10 emits `C` on every frame. -/
theorem stab_retain (C : Gesture) (feeds : List Gesture) :
    ∀ (h : List V3) (buf : List Gesture),
      buf.length = 10 →
      (∀ X, X ≠ C → buf.count X + feeds.count X ≤ 5) →
      stabOutputs ⟨h, buf, C⟩ feeds = List.replicate feeds.length C := by
  induction feeds with
  | nil => intro h buf _ _; rfl
  | cons g gs ih =>
      intro h buf hlen hcount
      have hstep : ∀ X, X ≠ C → (buf.tail ++ [g]).count X ≤ 5 := by
        intro X hX
        have h1 := count_step_bound X g buf gs (hcount X hX)
        omega
      rw [stabOutputs_cons, stabilize_keep h buf C g hlen hstep]
      rw [List.length_cons, List.replicate_succ]
      congr 1
      apply ih h (buf.tail ++ [g])
      · rw [List.length_append, List.length_tail, hlen]
        rfl
      · intro X hX
        exact count_step_bound X g buf gs (hcount X hX)

/-- `runStab` distributes over list append. -/
theorem runStab_append (st : RecState) (l1 l2 : List Gesture) :
    runStab st (l1 ++ l2) = runStab (runStab st l1) l2 := by
  unfold runStab
  rw [List.foldl_append]

/-- Feeding `k ≤ 10` copies of a label to a fresh recognizer leaves the
buffer uniform and (for `k ≠ 0`) that label stable. -/
theorem runStab_replicate (a : Gesture) :
    ∀ k, k ≤ 10 → k ≠ 0 →
      runStab initRec (List.replicate k a) = ⟨[], List.replicate k a, a⟩ := by
  intro k
  induction k with
  | zero => intro _ h0; exact absurd rfl h0
  | succ m ih =>
      intro hm _
      rw [List.replicate_succ' m a, runStab_append]
      cases Nat.eq_zero_or_pos m with
      | inl h0 =>
          subst h0
          show (stabilize initRec a).2 = _
          rw [show initRec = (⟨[], List.replicate 0 a, Gesture.NONE⟩ : RecState)
            from rfl]
          rw [stabilize_uniform [] Gesture.NONE a 0 (by omega)]
          rw [← List.replicate_succ']
      | inr hpos =>
          rw [ih (by omega) (by omega)]
          show (stabilize ⟨[], List.replicate m a, a⟩ a).2 = _
          rw [stabilize_uniform [] a a m (by omega)]
          rw [← List.replicate_succ']

/-! ## Association-list lemmas -/

theorem deleteKey_of_hasKey_false (l : List (V3 × ℕ)) (k : V3)
    (h : hasKey l k = false) : deleteKey l k = l := by
  unfold hasKey at h
  unfold deleteKey
  rw [List.any_eq_false] at h
  apply List.filter_eq_self.mpr
  intro e he
  have := h e he
  simpa using this

theorem hasKey_append_single (l : List (V3 × ℕ)) (k : V3) (v : ℕ) :
    hasKey (l ++ [(k, v)]) k = true := by
  unfold hasKey
  rw [List.any_append]
  simp

theorem deleteKey_append (l1 l2 : List (V3 × ℕ)) (k : V3) :
    deleteKey (l1 ++ l2) k = deleteKey l1 k ++ deleteKey l2 k := by
  unfold deleteKey
  rw [List.filter_append]

theorem hasKey_deleteKey (l : List (V3 × ℕ)) (k : V3) :
    hasKey (deleteKey l k) k = false := by
  unfold hasKey deleteKey
  rw [List.any_eq_false]
  intro e he
  rw [List.mem_filter] at he
  simpa using he.2

theorem findVal_setKey_fresh (l : List (V3 × ℕ)) (k : V3) (v : ℕ)
    (h : hasKey l k = false) : findVal (setKey l k v) k = some v := by
  unfold setKey
  rw [if_neg (by rw [h]; simp)]
  unfold findVal
  rw [List.find?_append]
  have h1 : l.find? (fun e => e.1 = k) = none := by
    rw [List.find?_eq_none]
    intro e he
    unfold hasKey at h
    rw [List.any_eq_false] at h
    have := h e he
    simpa using this
  rw [h1]
  simp

/-! ## Classifier lemmas -/

theorem dist_nonneg' (p q : V3) : 0 ≤ dist p q := Real.sqrt_nonneg _

/-- Distance of two points on the x-axis with ordered coordinates. -/
theorem dist_axis (a b : ℚ) (hab : b ≤ a) :
    dist ⟨a, 0, 0⟩ ⟨b, 0, 0⟩ = ((a - b : ℚ) : ℝ) := by
  unfold dist
  norm_num
  rw [Real.sqrt_sq (by exact_mod_cast sub_nonneg.mpr hab)]

/-- Scaling both points scales the distance (`c ≥ 0`). -/
theorem dist_scale (c : ℚ) (hc : 0 ≤ c) (p q : V3) :
    dist ⟨c * p.x, c * p.y, c * p.z⟩ ⟨c * q.x, c * q.y, c * q.z⟩ =
      (c : ℝ) * dist p q := by
  unfold dist
  have hsq : ∀ u v : ℚ, ((c * u - c * v : ℚ) : ℝ) ^ 2 =
      (c : ℝ) ^ 2 * ((u - v : ℚ) : ℝ) ^ 2 := by
    intro u v
    push_cast
    ring
  rw [hsq, hsq, hsq, ← mul_add, ← mul_add]
  rw [Real.sqrt_mul (by positivity)]
  rw [Real.sqrt_sq (by exact_mod_cast hc)]

/-- The classifier labels a hand `PINCH` exactly when the pinch
condition holds (the first branch of the priority chain, and no other
branch returns `PINCH`). -/
theorem analyzeGesture_eq_pinch_iff (h : Hand) (t : ℚ) :
    analyzeGesture h t = Gesture.PINCH ↔ isPinching h t := by
  unfold analyzeGesture
  constructor
  · intro he
    by_contra hnp
    rw [if_neg hnp] at he
    split at he
    · exact absurd he (by decide)
    · split at he
      · exact absurd he (by decide)
      · split at he
        · exact absurd he (by decide)
        · split at he <;> exact absurd he (by decide)
  · intro hp
    rw [if_pos hp]

/-- Scaling a hand and the pinch threshold by the same positive factor
preserves the pinch condition. -/
theorem isPinching_scale (h : Hand) (t c : ℚ) (hc : 0 < c) :
    isPinching (scaleHand c h) (c * t) ↔ isPinching h t := by
  have hc' : (0 : ℝ) < (c : ℚ) := by exact_mod_cast hc
  have hds : ∀ i j : ℕ, dist (scaleHand c h i) (scaleHand c h j) =
      (c : ℝ) * dist (h i) (h j) := fun i j => dist_scale c hc.le (h i) (h j)
  unfold isPinching thumbIndexClose middleExtended ringExtended pinkyExtended
  unfold pinchDist
  rw [show scaleHand c h 4 = ⟨c * (h 4).x, c * (h 4).y, c * (h 4).z⟩ from rfl]
  rw [show scaleHand c h 8 = ⟨c * (h 8).x, c * (h 8).y, c * (h 8).z⟩ from rfl]
  rw [dist_scale c hc.le (h 4) (h 8)]
  rw [hds 12 0, hds 9 0, hds 16 0, hds 13 0, hds 20 0, hds 17 0]
  have harg : ((c * t : ℚ) : ℝ) = (c : ℝ) * (t : ℝ) := by push_cast; ring
  rw [harg]
  simp only [gt_iff_lt, mul_assoc, mul_lt_mul_left hc']

/-! ## Concrete hands for the classifier claims

All landmarks lie on the x-axis with the wrist at the origin, so every
distance reduces to a difference of x-coordinates. -/

/-- A hand satisfying all five fist-curl conditions *and* the pinch
condition: tips of middle/ring/pinky at 1.2 (between the 1.1 pinch-
extension factor and the 1.3 curl factor of their knuckles at 1), thumb
tip at 0.52 and index tip at 0.5 (pinch distance 0.02 < 0.05, both well
inside curl range). -/
def fistPinchHand : Hand := fun i =>
  if i = 0 then ⟨0, 0, 0⟩
  else if i = 4 then ⟨13 / 25, 0, 0⟩
  else if i = 8 then ⟨1 / 2, 0, 0⟩
  else if i = 12 ∨ i = 16 ∨ i = 20 then ⟨6 / 5, 0, 0⟩
  else ⟨1, 0, 0⟩

/-- A plain fist: all tips at 0.5 (curled), thumb tip and index tip a
full unit apart (no pinch). -/
def fistHand : Hand := fun i =>
  if i = 0 then ⟨0, 0, 0⟩
  else if i = 4 then ⟨1 / 2, 0, 0⟩
  else if i = 8 then ⟨-(1 / 2), 0, 0⟩
  else if i = 12 ∨ i = 16 ∨ i = 20 then ⟨1 / 2, 0, 0⟩
  else ⟨1, 0, 0⟩

/-- A passing pinch: thumb tip at 0.51 and index tip at 0.5 (distance
0.01 < 0.05), middle/ring/pinky tips at 1.2 > 1.1 × their knuckles at
1. -/
def pinchHand : Hand := fun i =>
  if i = 0 then ⟨0, 0, 0⟩
  else if i = 4 then ⟨51 / 100, 0, 0⟩
  else if i = 8 then ⟨1 / 2, 0, 0⟩
  else if i = 12 ∨ i = 16 ∨ i = 20 then ⟨6 / 5, 0, 0⟩
  else ⟨1, 0, 0⟩

theorem fistPinchHand_curls :
    indexCurled fistPinchHand ∧ middleCurled fistPinchHand ∧
    ringCurled fistPinchHand ∧ pinkyCurled fistPinchHand ∧
    thumbCurled fistPinchHand := by
  refine ⟨?_, ?_, ?_, ?_, ?_⟩
  · show dist ⟨1 / 2, 0, 0⟩ ⟨0, 0, 0⟩ < dist ⟨1, 0, 0⟩ ⟨0, 0, 0⟩ * 1.3
    rw [dist_axis _ _ (by norm_num), dist_axis _ _ (by norm_num)]
    norm_num
  · show dist ⟨6 / 5, 0, 0⟩ ⟨0, 0, 0⟩ < dist ⟨1, 0, 0⟩ ⟨0, 0, 0⟩ * 1.3
    rw [dist_axis _ _ (by norm_num), dist_axis _ _ (by norm_num)]
    norm_num
  · show dist ⟨6 / 5, 0, 0⟩ ⟨0, 0, 0⟩ < dist ⟨1, 0, 0⟩ ⟨0, 0, 0⟩ * 1.3
    rw [dist_axis _ _ (by norm_num), dist_axis _ _ (by norm_num)]
    norm_num
  · show dist ⟨6 / 5, 0, 0⟩ ⟨0, 0, 0⟩ < dist ⟨1, 0, 0⟩ ⟨0, 0, 0⟩ * 1.3
    rw [dist_axis _ _ (by norm_num), dist_axis _ _ (by norm_num)]
    norm_num
  · show dist ⟨13 / 25, 0, 0⟩ ⟨0, 0, 0⟩ < dist ⟨1, 0, 0⟩ ⟨0, 0, 0⟩ * 1.4
    rw [dist_axis _ _ (by norm_num), dist_axis _ _ (by norm_num)]
    norm_num

theorem fistPinchHand_isPinching : isPinching fistPinchHand (1 / 20) := by
  refine ⟨?_, ?_, ?_, ?_⟩
  · show dist ⟨13 / 25, 0, 0⟩ ⟨1 / 2, 0, 0⟩ < (((1 : ℚ) / 20 : ℚ) : ℝ)
    rw [dist_axis _ _ (by norm_num)]
    norm_num
  · show dist ⟨6 / 5, 0, 0⟩ ⟨0, 0, 0⟩ > dist ⟨1, 0, 0⟩ ⟨0, 0, 0⟩ * 1.1
    rw [dist_axis _ _ (by norm_num), dist_axis _ _ (by norm_num)]
    norm_num
  · show dist ⟨6 / 5, 0, 0⟩ ⟨0, 0, 0⟩ > dist ⟨1, 0, 0⟩ ⟨0, 0, 0⟩ * 1.1
    rw [dist_axis _ _ (by norm_num), dist_axis _ _ (by norm_num)]
    norm_num
  · show dist ⟨6 / 5, 0, 0⟩ ⟨0, 0, 0⟩ > dist ⟨1, 0, 0⟩ ⟨0, 0, 0⟩ * 1.1
    rw [dist_axis _ _ (by norm_num), dist_axis _ _ (by norm_num)]
    norm_num

theorem pinchHand_isPinching : isPinching pinchHand (1 / 20) := by
  refine ⟨?_, ?_, ?_, ?_⟩
  · show dist ⟨51 / 100, 0, 0⟩ ⟨1 / 2, 0, 0⟩ < (((1 : ℚ) / 20 : ℚ) : ℝ)
    rw [dist_axis _ _ (by norm_num)]
    norm_num
  · show dist ⟨6 / 5, 0, 0⟩ ⟨0, 0, 0⟩ > dist ⟨1, 0, 0⟩ ⟨0, 0, 0⟩ * 1.1
    rw [dist_axis _ _ (by norm_num), dist_axis _ _ (by norm_num)]
    norm_num
  · show dist ⟨6 / 5, 0, 0⟩ ⟨0, 0, 0⟩ > dist ⟨1, 0, 0⟩ ⟨0, 0, 0⟩ * 1.1
    rw [dist_axis _ _ (by norm_num), dist_axis _ _ (by norm_num)]
    norm_num
  · show dist ⟨6 / 5, 0, 0⟩ ⟨0, 0, 0⟩ > dist ⟨1, 0, 0⟩ ⟨0, 0, 0⟩ * 1.1
    rw [dist_axis _ _ (by norm_num), dist_axis _ _ (by norm_num)]
    norm_num

/-! ## Claim theorems -/

/-- C1 counterexample: a world holding one voxel, one undo entry and a
nonzero rotation is *not* left in the post-reset empty state when
`loadFromJSON` receives a string that does not parse — nothing changes
at all, because `JSON.parse` throws before `reset()` runs. -/
theorem c1_counterexample :
    let w : VW := ⟨[(⟨1, 1, 1⟩, cyanColor)], [⟨AKind.ADD, ⟨1, 1, 1⟩, cyanColor⟩],
      ⟨1, 0, 0⟩, true, ⟨1, 1, 1⟩, 8⟩
    loadFromJSON w none = w ∧
    (loadFromJSON w none).voxels ≠ [] ∧
    (loadFromJSON w none).history ≠ [] ∧
    (loadFromJSON w none).rotation ≠ ⟨0, 0, 0⟩ := by
  refine ⟨rfl, by simp [loadFromJSON], by simp [loadFromJSON], ?_⟩
  intro hrot
  have : (1 : ℚ) = 0 := congrArg V3.x hrot
  norm_num at this

/-- C1 (amended): when the snapshot string fails to decode, the world is
left exactly as it was before the call — `JSON.parse` throws before
`reset()` is reached, so no reset happens and no partial state is
retained; on a successfully decoded snapshot the load resets first and
then recreates the records. -/
theorem c1_load_decode_failure (w : VW) :
    loadFromJSON w none = w := rfl

/-- C2: undo is a strict inverse of the most recent mutation — placing
at a valid, unoccupied cursor cell and undoing restores the voxel map
exactly; removing an occupied cursor cell and undoing restores the voxel
at that key with its original color. -/
theorem c2_undo_strict_inverse (w : VW) :
    (w.cursorVisible = true → hasKey w.voxels w.cursorPos = false →
      (undo (createVoxelAtCursor w).1).voxels = w.voxels) ∧
    (∀ c : ℕ, w.cursorVisible = true →
      findVal w.voxels w.cursorPos = some c →
      findVal (undo (removeVoxelAtCursor w)).voxels w.cursorPos = some c) := by
  constructor
  · intro hv hk
    have hcreate : createVoxelAtCursor w =
        ({ w with voxels := w.voxels ++ [(w.cursorPos, cyanColor)],
                  history := w.history ++
                    [⟨AKind.ADD, w.cursorPos, cyanColor⟩] }, true) := by
      unfold createVoxelAtCursor
      dsimp only
      rw [hv]
      rw [if_neg (by simp)]
      rw [hk]
      rw [if_neg (by simp)]
      unfold setKey
      rw [hk]
      rw [if_neg (by simp)]
    rw [hcreate]
    unfold undo
    rw [List.getLast?_concat]
    simp only
    rw [List.dropLast_concat]
    rw [if_pos (by rw [hasKey_append_single])]
    simp only
    rw [deleteKey_append, deleteKey_of_hasKey_false w.voxels w.cursorPos hk]
    unfold deleteKey
    simp
  · intro c hv hfind
    have hremove : removeVoxelAtCursor w =
        { w with voxels := deleteKey w.voxels w.cursorPos,
                 history := w.history ++
                   [⟨AKind.REMOVE, w.cursorPos, c⟩] } := by
      unfold removeVoxelAtCursor
      dsimp only
      rw [hv]
      rw [if_neg (by simp)]
      rw [hfind]
    rw [hremove]
    unfold undo
    rw [List.getLast?_concat]
    simp only
    exact findVal_setKey_fresh _ _ _ (hasKey_deleteKey w.voxels w.cursorPos)

/-- C2 witness: a placed-then-undone voxel on an empty world, and a
removed-then-undone voxel on a one-voxel world. -/
theorem c2_witness :
    (undo (createVoxelAtCursor ⟨[], [], ⟨0, 0, 0⟩, true, ⟨1, 1, 1⟩, 8⟩).1).voxels
      = [] ∧
    findVal (undo (removeVoxelAtCursor
        ⟨[(⟨1, 1, 1⟩, 255)], [], ⟨0, 0, 0⟩, true, ⟨1, 1, 1⟩, 8⟩)).voxels
      ⟨1, 1, 1⟩ = some 255 :=
  ⟨(c2_undo_strict_inverse ⟨[], [], ⟨0, 0, 0⟩, true, ⟨1, 1, 1⟩, 8⟩).1 rfl rfl,
   (c2_undo_strict_inverse ⟨[(⟨1, 1, 1⟩, 255)], [], ⟨0, 0, 0⟩, true,
      ⟨1, 1, 1⟩, 8⟩).2 255 rfl rfl⟩

/-- C6: placement refuses duplicates and is idempotent — a second
`createVoxelAtCursor` at the same resolved cell is a no-op returning
`false` (voxel map and undo log untouched); an invalid cursor returns
`false` and changes nothing; a valid unoccupied cursor inserts the
voxel, appends exactly one `ADD` action, and returns `true`. -/
theorem c6_place_idempotent (w : VW) :
    createVoxelAtCursor (createVoxelAtCursor w).1 =
      ((createVoxelAtCursor w).1, false) ∧
    (w.cursorVisible = false → createVoxelAtCursor w = (w, false)) ∧
    (w.cursorVisible = true → hasKey w.voxels w.cursorPos = false →
      createVoxelAtCursor w =
        ({ w with voxels := w.voxels ++ [(w.cursorPos, cyanColor)],
                  history := w.history ++
                    [⟨AKind.ADD, w.cursorPos, cyanColor⟩] }, true)) := by
  have hsucc : ∀ w : VW, w.cursorVisible = true →
      hasKey w.voxels w.cursorPos = false →
      createVoxelAtCursor w =
        ({ w with voxels := w.voxels ++ [(w.cursorPos, cyanColor)],
                  history := w.history ++
                    [⟨AKind.ADD, w.cursorPos, cyanColor⟩] }, true) := by
    intro w hv hk
    unfold createVoxelAtCursor
    dsimp only
    rw [hv, if_neg (by simp), hk, if_neg (by simp)]
    unfold setKey
    rw [hk, if_neg (by simp)]
  refine ⟨?_, ?_, hsucc w⟩
  · by_cases hv : w.cursorVisible = false
    · have h1 : createVoxelAtCursor w = (w, false) := by
        unfold createVoxelAtCursor
        rw [if_pos hv]
      rw [h1]
      unfold createVoxelAtCursor
      rw [if_pos hv]
    · have hv' : w.cursorVisible = true := by
        revert hv
        cases w.cursorVisible <;> simp
      by_cases hk : hasKey w.voxels w.cursorPos = true
      · have h1 : createVoxelAtCursor w = (w, false) := by
          unfold createVoxelAtCursor
          rw [if_neg (by rw [hv']; simp), if_pos hk]
        rw [h1]
        unfold createVoxelAtCursor
        rw [if_neg (by rw [hv']; simp), if_pos hk]
      · have hk' : hasKey w.voxels w.cursorPos = false := by
          revert hk
          cases hasKey w.voxels w.cursorPos <;> simp
        rw [hsucc w hv' hk']
        unfold createVoxelAtCursor
        simp only
        rw [if_neg (by rw [hv']; simp)]
        rw [if_pos (by rw [hasKey_append_single])]
  · intro hv
    unfold createVoxelAtCursor
    rw [if_pos hv]

/-- C6 witness: an empty world with a valid cursor — first placement
succeeds with one `ADD` appended, the second placement at the same cell
returns `false` and changes nothing; a hidden-cursor world refuses. -/
theorem c6_witness :
    createVoxelAtCursor
        (createVoxelAtCursor ⟨[], [], ⟨0, 0, 0⟩, true, ⟨1, 1, 1⟩, 8⟩).1 =
      ((createVoxelAtCursor ⟨[], [], ⟨0, 0, 0⟩, true, ⟨1, 1, 1⟩, 8⟩).1, false) ∧
    createVoxelAtCursor ⟨[], [], ⟨0, 0, 0⟩, false, ⟨1, 1, 1⟩, 8⟩ =
      (⟨[], [], ⟨0, 0, 0⟩, false, ⟨1, 1, 1⟩, 8⟩, false) ∧
    createVoxelAtCursor ⟨[], [], ⟨0, 0, 0⟩, true, ⟨1, 1, 1⟩, 8⟩ =
      (⟨[(⟨1, 1, 1⟩, cyanColor)], [⟨AKind.ADD, ⟨1, 1, 1⟩, cyanColor⟩],
        ⟨0, 0, 0⟩, true, ⟨1, 1, 1⟩, 8⟩, true) :=
  ⟨(c6_place_idempotent ⟨[], [], ⟨0, 0, 0⟩, true, ⟨1, 1, 1⟩, 8⟩).1,
   (c6_place_idempotent ⟨[], [], ⟨0, 0, 0⟩, false, ⟨1, 1, 1⟩, 8⟩).2.1 rfl,
   (c6_place_idempotent ⟨[], [], ⟨0, 0, 0⟩, true, ⟨1, 1, 1⟩, 8⟩).2.2 rfl rfl⟩

/-- C3: majority-vote stabilizer with capacity 10 and 60% threshold —
ten consecutive identical raw labels make that label stable; from a
state stabilized on any label `C`, five frames of `A` followed by five
of a different `B` emit `C` on all ten frames: `B` (at most 5 of 10,
50% < 60%) is never adopted and the previously stabilized label keeps
being emitted. -/
theorem c3_majority_vote_stabilizer (A B C : Gesture) (hAB : A ≠ B) :
    (runStab initRec (List.replicate 10 A)).lastStableGesture = A ∧
    stabOutputs (runStab initRec (List.replicate 10 C))
      (List.replicate 5 A ++ List.replicate 5 B) = List.replicate 10 C := by
  constructor
  · rw [runStab_replicate A 10 (by omega) (by omega)]
  · rw [runStab_replicate C 10 (by omega) (by omega)]
    have hcount : ∀ X, X ≠ C →
        (List.replicate 10 C).count X +
          (List.replicate 5 A ++ List.replicate 5 B).count X ≤ 5 := by
      intro X hX
      have h0 : (List.replicate 10 C).count X = 0 :=
        List.count_eq_zero_of_not_mem (by simp [List.mem_replicate, hX])
      rw [h0, List.count_append]
      by_cases hXA : X = A
      · subst hXA
        have hB : (List.replicate 5 B).count X = 0 :=
          List.count_eq_zero_of_not_mem (by
            simp [List.mem_replicate]
            intro h5
            exact absurd h5 hAB)
        rw [hB, List.count_replicate_self]
      · have hA : (List.replicate 5 A).count X = 0 :=
          List.count_eq_zero_of_not_mem (by simp [List.mem_replicate, hXA])
        rw [hA]
        have hB : (List.replicate 5 B).count X ≤ 5 := by
          rw [List.count_replicate]
          split <;> omega
        omega
    have h := stab_retain C (List.replicate 5 A ++ List.replicate 5 B) []
      (List.replicate 10 C) (by simp) hcount
    simpa using h

/-- C3 witness at `CLOSED` / `OPEN_PALM` with prior stable `PINCH`. -/
theorem c3_witness :
    (runStab initRec
        (List.replicate 10 Gesture.CLOSED)).lastStableGesture =
      Gesture.CLOSED ∧
    stabOutputs (runStab initRec (List.replicate 10 Gesture.PINCH))
        (List.replicate 5 Gesture.CLOSED ++
          List.replicate 5 Gesture.OPEN_PALM) =
      List.replicate 10 Gesture.PINCH :=
  c3_majority_vote_stabilizer Gesture.CLOSED Gesture.OPEN_PALM Gesture.PINCH
    (by decide)

/-- C4 counterexample: `fistPinchHand` meets every curl condition of the
claim (all four fingertips within curl distance, thumb within curl
distance), yet the classifier does not return `CLOSED` — the hand also
passes the pinch test and `PINCH` has priority over `CLOSED`. -/
theorem c4_counterexample :
    (indexCurled fistPinchHand ∧ middleCurled fistPinchHand ∧
      ringCurled fistPinchHand ∧ pinkyCurled fistPinchHand ∧
      thumbCurled fistPinchHand) ∧
    analyzeGesture fistPinchHand (1 / 20) ≠ Gesture.CLOSED := by
  refine ⟨fistPinchHand_curls, ?_⟩
  rw [(analyzeGesture_eq_pinch_iff fistPinchHand (1 / 20)).mpr
    fistPinchHand_isPinching]
  decide

/-- C4 (amended): a 21-landmark hand whose four non-thumb fingertips and
thumb are all within curl distance of the wrist, *and which does not
satisfy the pinch condition*, is classified `CLOSED` — the curl
hypotheses already rule out the thumbs-up and victory branches, so only
the pinch priority can preempt the fist. -/
theorem c4_fist_classified_closed (h : Hand) (t : ℚ)
    (h1 : indexCurled h) (h2 : middleCurled h) (h3 : ringCurled h)
    (h4 : pinkyCurled h) (h5 : thumbCurled h)
    (hnp : ¬ isPinching h t) :
    analyzeGesture h t = Gesture.CLOSED := by
  unfold analyzeGesture
  rw [if_neg hnp]
  have hnt : ¬ isThumbsUp h := by
    rintro ⟨⟨_, hd⟩, _⟩
    have hb : (0 : ℝ) ≤ dist (h 2) (h 0) := dist_nonneg' _ _
    unfold thumbCurled at h5
    have h15 : dist (h 2) (h 0) * 1.5 < dist (h 2) (h 0) * 1.4 := by
      calc dist (h 2) (h 0) * 1.5 < dist (h 4) (h 0) := hd
        _ < dist (h 2) (h 0) * 1.4 := h5
    nlinarith
  have hnv : ¬ victoryCondition h := by
    rintro ⟨hni, _⟩
    exact hni h1
  rw [if_neg hnt, if_neg hnv, if_pos ⟨h1, h2, h3, h4, h5⟩]

/-- C4 witness: a plain fist (thumb tip a full unit away from the index
tip, so no pinch) is classified `CLOSED`. -/
theorem c4_witness :
    (indexCurled fistHand ∧ middleCurled fistHand ∧ ringCurled fistHand ∧
      pinkyCurled fistHand ∧ thumbCurled fistHand) ∧
    ¬ isPinching fistHand (1 / 20) ∧
    analyzeGesture fistHand (1 / 20) = Gesture.CLOSED := by
  have hcurl : indexCurled fistHand ∧ middleCurled fistHand ∧
      ringCurled fistHand ∧ pinkyCurled fistHand ∧ thumbCurled fistHand := by
    refine ⟨?_, ?_, ?_, ?_, ?_⟩
    · show dist ⟨-(1 / 2), 0, 0⟩ ⟨0, 0, 0⟩ < dist ⟨1, 0, 0⟩ ⟨0, 0, 0⟩ * 1.3
      have hd : dist ⟨-(1 / 2), 0, 0⟩ ⟨0, 0, 0⟩ = dist ⟨0, 0, 0⟩ ⟨-(1 / 2), 0, 0⟩ := by
        unfold dist
        norm_num
      rw [hd, dist_axis _ _ (by norm_num), dist_axis _ _ (by norm_num)]
      norm_num
    · show dist ⟨1 / 2, 0, 0⟩ ⟨0, 0, 0⟩ < dist ⟨1, 0, 0⟩ ⟨0, 0, 0⟩ * 1.3
      rw [dist_axis _ _ (by norm_num), dist_axis _ _ (by norm_num)]
      norm_num
    · show dist ⟨1 / 2, 0, 0⟩ ⟨0, 0, 0⟩ < dist ⟨1, 0, 0⟩ ⟨0, 0, 0⟩ * 1.3
      rw [dist_axis _ _ (by norm_num), dist_axis _ _ (by norm_num)]
      norm_num
    · show dist ⟨1 / 2, 0, 0⟩ ⟨0, 0, 0⟩ < dist ⟨1, 0, 0⟩ ⟨0, 0, 0⟩ * 1.3
      rw [dist_axis _ _ (by norm_num), dist_axis _ _ (by norm_num)]
      norm_num
    · show dist ⟨1 / 2, 0, 0⟩ ⟨0, 0, 0⟩ < dist ⟨1, 0, 0⟩ ⟨0, 0, 0⟩ * 1.4
      rw [dist_axis _ _ (by norm_num), dist_axis _ _ (by norm_num)]
      norm_num
  have hnp : ¬ isPinching fistHand (1 / 20) := by
    rintro ⟨hclose, _⟩
    unfold thumbIndexClose at hclose
    have he : pinchDist fistHand =
        dist ⟨1 / 2, 0, 0⟩ ⟨-(1 / 2), 0, 0⟩ := rfl
    rw [he, dist_axis _ _ (by norm_num)] at hclose
    norm_num at hclose
  exact ⟨hcurl, hnp,
    c4_fist_classified_closed fistHand (1 / 20) hcurl.1 hcurl.2.1 hcurl.2.2.1
      hcurl.2.2.2.1 hcurl.2.2.2.2 hnp⟩

/-- C5 counterexample: `pinchHand` is classified `PINCH` at the default
threshold `0.05`, but after scaling every landmark coordinate by the
positive factor `10` the thumb-to-index distance (0.1) exceeds the
*absolute* threshold, and the scaled hand is no longer classified
`PINCH`. -/
theorem c5_counterexample :
    analyzeGesture pinchHand (1 / 20) = Gesture.PINCH ∧ (0 : ℚ) < 10 ∧
    analyzeGesture (scaleHand 10 pinchHand) (1 / 20) ≠ Gesture.PINCH := by
  refine ⟨(analyzeGesture_eq_pinch_iff _ _).mpr pinchHand_isPinching,
    by norm_num, ?_⟩
  rw [Ne, analyzeGesture_eq_pinch_iff]
  rintro ⟨hclose, _⟩
  unfold thumbIndexClose at hclose
  have he : pinchDist (scaleHand 10 pinchHand) =
      (10 : ℚ) * dist (pinchHand 4) (pinchHand 8) :=
    dist_scale 10 (by norm_num) (pinchHand 4) (pinchHand 8)
  have hd : dist (pinchHand 4) (pinchHand 8) =
      dist ⟨51 / 100, 0, 0⟩ ⟨1 / 2, 0, 0⟩ := rfl
  rw [he, hd, dist_axis _ _ (by norm_num)] at hclose
  norm_num at hclose

/-- C5 (amended): pinch classification is invariant under scaling all
landmark coordinates by a positive factor *when the configured
pinch-distance threshold is scaled by the same factor* — every other
test is a ratio; only the absolute thumb-to-index threshold breaks
plain scale invariance. -/
theorem c5_pinch_scale_invariant (h : Hand) (t c : ℚ) (hc : 0 < c)
    (hp : analyzeGesture h t = Gesture.PINCH) :
    analyzeGesture (scaleHand c h) (c * t) = Gesture.PINCH := by
  rw [analyzeGesture_eq_pinch_iff] at hp ⊢
  exact (isPinching_scale h t c hc).mpr hp

/-- C5 witness: scaling `pinchHand` by 2 with the threshold scaled to
`0.1` still classifies `PINCH`. -/
theorem c5_witness :
    (0 : ℚ) < 2 ∧ analyzeGesture pinchHand (1 / 20) = Gesture.PINCH ∧
    analyzeGesture (scaleHand 2 pinchHand) (2 * (1 / 20)) = Gesture.PINCH :=
  ⟨by norm_num, (analyzeGesture_eq_pinch_iff _ _).mpr pinchHand_isPinching,
   c5_pinch_scale_invariant pinchHand (1 / 20) 2 (by norm_num)
     ((analyzeGesture_eq_pinch_iff _ _).mpr pinchHand_isPinching)⟩

/-! ## Floor resolver lemmas -/

/-- A height of the form `0.5 + n` (the heights floor placement
produces). -/
def halfNat (q : ℚ) : Prop := ∃ n : ℕ, q = 1 / 2 + n

/-- Half-integer heights are discrete: strictly below means a full unit
below the successor. -/
theorem halfNat_step (a b : ℚ) (ha : halfNat a) (hb : halfNat b)
    (h : a < b) : a + 1 ≤ b := by
  obtain ⟨n, rfl⟩ := ha
  obtain ⟨m, rfl⟩ := hb
  have hnm : n < m := by
    have : (n : ℚ) < m := by linarith
    exact_mod_cast this
  have : (n : ℚ) + 1 ≤ m := by exact_mod_cast hnm
  linarith

/-- The column scan leaves the accumulator alone when every column
member lies strictly below it. -/
theorem colStep_skip (x z : ℚ) (l : List (V3 × ℕ)) :
    ∀ acc : ℚ, (∀ e ∈ l, inColumn x z e → e.1.y < acc) →
      l.foldl (colStep x z) acc = acc := by
  induction l with
  | nil => intro acc _; rfl
  | cons e rest ih =>
      intro acc hlt
      rw [List.foldl_cons]
      by_cases hc : inColumn x z e
      · have hy := hlt e (by simp) hc
        unfold colStep
        rw [if_pos hc, if_neg (by linarith)]
        exact ih acc (fun e' he' hc' => hlt e' (by simp [he']) hc')
      · unfold colStep
        rw [if_neg hc]
        exact ih acc (fun e' he' hc' => hlt e' (by simp [he']) hc')

/-- The column scan ends exactly one unit above the tallest column
member, for half-integer column heights and a half-integer accumulator
not above that target. -/
theorem colStep_max (x z : ℚ) (l : List (V3 × ℕ)) :
    ∀ (acc : ℚ) (e0 : V3 × ℕ), e0 ∈ l → inColumn x z e0 →
      (∀ e ∈ l, inColumn x z e → e.1.y ≤ e0.1.y) →
      (∀ e ∈ l, inColumn x z e → halfNat e.1.y) →
      halfNat acc → acc ≤ e0.1.y + 1 →
      l.foldl (colStep x z) acc = e0.1.y + 1 := by
  induction l with
  | nil =>
      intro acc e0 h0
      simp at h0
  | cons e rest ih =>
      intro acc e0 h0 hcol hmax hhalf hacc hle
      rw [List.foldl_cons]
      by_cases hc : inColumn x z e
      · have hey : e.1.y ≤ e0.1.y := hmax e (by simp) hc
        have hehalf : halfNat e.1.y := hhalf e (by simp) hc
        have hstep : colStep x z acc e =
            if e.1.y ≥ acc then e.1.y + 1 else acc := by
          unfold colStep
          rw [if_pos hc]
        rcases List.mem_cons.mp h0 with he0 | he0mem
        · -- the maximum sits at the head: the accumulator becomes
          -- e0.y + 1 and the rest of the scan cannot pass it
          subst he0
          have hacc' : colStep x z acc e0 = e0.1.y + 1 := by
            rw [hstep]
            by_cases hge : e0.1.y ≥ acc
            · rw [if_pos hge]
            · rw [if_neg hge]
              push_neg at hge
              have := halfNat_step e0.1.y acc hehalf hacc hge
              linarith
          rw [hacc']
          apply colStep_skip
          intro e' he' hc'
          have := hmax e' (by simp [he']) hc'
          linarith
        · -- the maximum is further on: one step preserves the
          -- invariants
          have hacc' : halfNat (colStep x z acc e) := by
            rw [hstep]
            by_cases hge : e.1.y ≥ acc
            · rw [if_pos hge]
              obtain ⟨n, hn⟩ := hehalf
              exact ⟨n + 1, by rw [hn]; push_cast; ring⟩
            · rw [if_neg hge]
              exact hacc
          have hle' : colStep x z acc e ≤ e0.1.y + 1 := by
            rw [hstep]
            by_cases hge : e.1.y ≥ acc
            · rw [if_pos hge]
              linarith
            · rw [if_neg hge]
              exact hle
          exact ih (colStep x z acc e) e0 he0mem hcol
            (fun e' he' hc' => hmax e' (by simp [he']) hc')
            (fun e' he' hc' => hhalf e' (by simp [he']) hc') hacc' hle'
      · have hstep : colStep x z acc e = acc := by
          unfold colStep
          rw [if_neg hc]
        rw [hstep]
        rcases List.mem_cons.mp h0 with he0 | he0mem
        · subst he0
          exact absurd hcol hc
        · exact ih acc e0 he0mem hcol
            (fun e' he' hc' => hmax e' (by simp [he']) hc')
            (fun e' he' hc' => hhalf e' (by simp [he']) hc') hacc hle

/-- C7: floor-targeted resolution stacks on the column top.  When the
ray misses all voxels and hits the ground at planar point `(px, pz)`,
the resolved cell's `(x, z)` is the floor-quantized cell center; its
`y` is ground level `0.5` when no voxel occupies that column, and
exactly one unit above the highest voxel of the column otherwise.  The
hypothesis restricts the column's occupants to the half-integer heights
`0.5 + n` that floor placement produces ("placed" voxels — the cursor
cell of the face-stacking branch is rounded to integer coordinates, so
its voxels never land in a floor column). -/
theorem c7_floor_resolution (voxels : List (V3 × ℕ)) (px pz : ℚ)
    (hplaced : ∀ e ∈ voxels,
      inColumn (⌊px⌋ + 1 / 2) (⌊pz⌋ + 1 / 2) e → halfNat e.1.y) :
    (floorResolve voxels px pz).x = ⌊px⌋ + 1 / 2 ∧
    (floorResolve voxels px pz).z = ⌊pz⌋ + 1 / 2 ∧
    ((∀ e ∈ voxels, ¬ inColumn (⌊px⌋ + 1 / 2) (⌊pz⌋ + 1 / 2) e) →
      (floorResolve voxels px pz).y = 1 / 2) ∧
    (∀ e0 ∈ voxels, inColumn (⌊px⌋ + 1 / 2) (⌊pz⌋ + 1 / 2) e0 →
      (∀ e ∈ voxels, inColumn (⌊px⌋ + 1 / 2) (⌊pz⌋ + 1 / 2) e →
        e.1.y ≤ e0.1.y) →
      (floorResolve voxels px pz).y = e0.1.y + 1) := by
  refine ⟨rfl, rfl, ?_, ?_⟩
  · intro hempty
    show voxels.foldl (colStep (⌊px⌋ + 1 / 2) (⌊pz⌋ + 1 / 2)) (1 / 2) = 1 / 2
    exact colStep_skip _ _ _ _ (fun e he hc => absurd hc (hempty e he))
  · intro e0 he0 hc0 hmax
    show voxels.foldl (colStep (⌊px⌋ + 1 / 2) (⌊pz⌋ + 1 / 2)) (1 / 2) =
      e0.1.y + 1
    apply colStep_max _ _ _ _ e0 he0 hc0 hmax hplaced ⟨0, by norm_num⟩
    obtain ⟨n, hn⟩ := hplaced e0 he0 hc0
    rw [hn]
    have : (0 : ℚ) ≤ n := by positivity
    linarith

/-- C7 witness: the empty world resolves a ground hit at the origin
cell to ground level; a two-voxel column at heights 0.5 and 1.5
resolves to 2.5. -/
theorem c7_witness :
    (floorResolve [] 0 0).y = 1 / 2 ∧
    (floorResolve [(⟨1 / 2, 1 / 2, 1 / 2⟩, cyanColor),
        (⟨1 / 2, 3 / 2, 1 / 2⟩, cyanColor)] 0 0).y = 3 / 2 + 1 := by
  constructor
  · exact (c7_floor_resolution [] 0 0 (by simp)).2.2.1 (by simp)
  · have hplaced : ∀ e ∈ [((⟨1 / 2, 1 / 2, 1 / 2⟩ : V3), cyanColor),
        ((⟨1 / 2, 3 / 2, 1 / 2⟩ : V3), cyanColor)],
        inColumn (⌊(0 : ℚ)⌋ + 1 / 2) (⌊(0 : ℚ)⌋ + 1 / 2) e →
          halfNat e.1.y := by
      intro e he _
      simp only [List.mem_cons, List.not_mem_nil, or_false] at he
      rcases he with he | he
      · rw [he]
        exact ⟨0, by norm_num⟩
      · rw [he]
        exact ⟨1, by norm_num⟩
    refine (c7_floor_resolution _ 0 0 hplaced).2.2.2
      (⟨1 / 2, 3 / 2, 1 / 2⟩, cyanColor) (by simp) ?_ ?_
    · constructor <;> norm_num
    · intro e he _
      simp only [List.mem_cons, List.not_mem_nil, or_false] at he
      rcases he with he | he
      · rw [he]
        norm_num
      · rw [he]

/-- C8: two-hand zoom composites.  A frame whose two hands classify as
`CLOSED` and `OPEN_PALM` (either order) makes `update` return
`ZOOM_OUT` immediately — the recognizer state (and so any buffer
history) is untouched; two `CLOSED` hands return `ZOOM_IN`.  The frame
handler on `ZOOM_OUT` raises the camera distance by 0.2 clamped to at
most 20, sets the state to `ZOOMING`, and performs no other
state-machine processing (only the routine cursor update precedes the
early return); `ZOOM_IN` symmetrically lowers it clamped to at least
2. -/
theorem c8_two_hand_zoom (st : RecState) (h1 h2 : HandA) (w : VW)
    (app : AppState) (ndc : ℚ × ℚ) (cur : Option V3) (now : ℚ) :
    ((h1.gesture = Gesture.CLOSED ∧ h2.gesture = Gesture.OPEN_PALM) ∨
      (h1.gesture = Gesture.OPEN_PALM ∧ h2.gesture = Gesture.CLOSED) →
      recUpdate st [h1, h2] = (Gesture.ZOOM_OUT, st)) ∧
    (h1.gesture = Gesture.CLOSED ∧ h2.gesture = Gesture.CLOSED →
      recUpdate st [h1, h2] = (Gesture.ZOOM_IN, st)) ∧
    handleInteraction w app Gesture.ZOOM_OUT ndc cur now =
      ({ applyCursor w cur with cameraZ := min 20 (w.cameraZ + 2 / 10) },
       { app with interactionState := IState.ZOOMING }) ∧
    handleInteraction w app Gesture.ZOOM_IN ndc cur now =
      ({ applyCursor w cur with cameraZ := max 2 (w.cameraZ - 2 / 10) },
       { app with interactionState := IState.ZOOMING }) := by
  have hcam : (applyCursor w cur).cameraZ = w.cameraZ := by
    cases cur <;> rfl
  refine ⟨?_, ?_, ?_, ?_⟩
  · rintro (⟨hg1, hg2⟩ | ⟨hg1, hg2⟩)
    · unfold recUpdate
      dsimp only
      rw [if_neg (by
          rintro ⟨_, hcc⟩
          rw [hg2] at hcc
          exact absurd hcc (by decide)),
        if_pos (Or.inl ⟨hg1, hg2⟩)]
    · unfold recUpdate
      dsimp only
      rw [if_neg (by
          rintro ⟨hcc, _⟩
          rw [hg1] at hcc
          exact absurd hcc (by decide)),
        if_pos (Or.inr ⟨hg1, hg2⟩)]
  · rintro ⟨hg1, hg2⟩
    unfold recUpdate
    dsimp only
    rw [if_pos ⟨hg1, hg2⟩]
  · unfold handleInteraction
    rw [if_neg (by decide), if_pos rfl]
    dsimp only
    rw [hcam]
  · unfold handleInteraction
    rw [if_pos rfl]
    dsimp only
    rw [hcam]

/-- C8 witness: a concrete `CLOSED` + `OPEN_PALM` frame on a fresh
recognizer, and the zoom arithmetic on a world at distance 8. -/
theorem c8_witness :
    recUpdate initRec [⟨Gesture.CLOSED, ⟨0, 0, 0⟩⟩,
        ⟨Gesture.OPEN_PALM, ⟨0, 0, 0⟩⟩] = (Gesture.ZOOM_OUT, initRec) ∧
    recUpdate initRec [⟨Gesture.CLOSED, ⟨0, 0, 0⟩⟩,
        ⟨Gesture.CLOSED, ⟨0, 0, 0⟩⟩] = (Gesture.ZOOM_IN, initRec) ∧
    handleInteraction ⟨[], [], ⟨0, 0, 0⟩, false, ⟨0, 0, 0⟩, 8⟩
        ⟨IState.IDLE, 0, 0, 0, false, none, Gesture.NONE⟩ Gesture.ZOOM_OUT
        (0, 0) none 1000 =
      (⟨[], [], ⟨0, 0, 0⟩, false, ⟨0, 0, 0⟩, min 20 (8 + 2 / 10)⟩,
       ⟨IState.ZOOMING, 0, 0, 0, false, none, Gesture.NONE⟩) :=
  ⟨(c8_two_hand_zoom initRec ⟨Gesture.CLOSED, ⟨0, 0, 0⟩⟩
      ⟨Gesture.OPEN_PALM, ⟨0, 0, 0⟩⟩ ⟨[], [], ⟨0, 0, 0⟩, false, ⟨0, 0, 0⟩, 8⟩
      ⟨IState.IDLE, 0, 0, 0, false, none, Gesture.NONE⟩ (0, 0) none 1000).1
    (Or.inl ⟨rfl, rfl⟩),
   (c8_two_hand_zoom initRec ⟨Gesture.CLOSED, ⟨0, 0, 0⟩⟩
      ⟨Gesture.CLOSED, ⟨0, 0, 0⟩⟩ ⟨[], [], ⟨0, 0, 0⟩, false, ⟨0, 0, 0⟩, 8⟩
      ⟨IState.IDLE, 0, 0, 0, false, none, Gesture.NONE⟩ (0, 0) none 1000).2.1
    ⟨rfl, rfl⟩,
   (c8_two_hand_zoom initRec ⟨Gesture.CLOSED, ⟨0, 0, 0⟩⟩
      ⟨Gesture.OPEN_PALM, ⟨0, 0, 0⟩⟩ ⟨[], [], ⟨0, 0, 0⟩, false, ⟨0, 0, 0⟩, 8⟩
      ⟨IState.IDLE, 0, 0, 0, false, none, Gesture.NONE⟩ (0, 0) none 1000).2.2.1⟩

/-- C9: the rotation-to-pinch debounce.  With the stabilized gesture
`PINCH` and the interaction state `ROTATING` or `ZOOMING`: within
300 ms of the last rotation frame the handler returns with the machine
state untouched (only the cursor update has run); at or past 300 ms the
pinch is accepted — the state becomes `DRAW_WAIT`, the pinch start time
is recorded as `now`, and the placed-this-hold flag is cleared. -/
theorem c9_pinch_debounce (w : VW) (app : AppState) (ndc : ℚ × ℚ)
    (cur : Option V3) (now : ℚ)
    (hst : app.interactionState = IState.ROTATING ∨
      app.interactionState = IState.ZOOMING) :
    (now - app.lastClosedTime < 300 →
      handleInteraction w app Gesture.PINCH ndc cur now =
        (applyCursor w cur, app)) ∧
    (¬ now - app.lastClosedTime < 300 →
      handleInteraction w app Gesture.PINCH ndc cur now =
        (applyCursor w cur,
         { app with interactionState := IState.DRAW_WAIT,
                    pinchStartTime := now, blockPlacedThisPinch := false,
                    lastPoint := some ndc,
                    lastGesture := Gesture.PINCH })) := by
  constructor
  · intro hlt
    unfold handleInteraction
    rw [if_neg (by decide), if_neg (by decide), if_neg (by decide),
      if_pos rfl, if_pos hst, if_pos hlt]
  · intro hge
    unfold handleInteraction
    rw [if_neg (by decide), if_neg (by decide), if_neg (by decide),
      if_pos rfl, if_pos hst, if_neg hge]
    dsimp only
    rw [if_pos (by exact ⟨by decide, by decide⟩)]
    unfold stateActions
    dsimp only
    rw [if_neg (by
      rintro ⟨hgt, _⟩
      rw [sub_self] at hgt
      norm_num at hgt)]

/-- C9 witness: a `ROTATING` state pinched 100 ms after the last
rotation frame is refused; pinched 400 ms after, it enters `DRAW_WAIT`
with the timers and flag set. -/
theorem c9_witness :
    handleInteraction ⟨[], [], ⟨0, 0, 0⟩, false, ⟨0, 0, 0⟩, 8⟩
        ⟨IState.ROTATING, 1000, 0, 0, true, none, Gesture.CLOSED⟩
        Gesture.PINCH (0, 0) none 1100 =
      (⟨[], [], ⟨0, 0, 0⟩, false, ⟨0, 0, 0⟩, 8⟩,
       ⟨IState.ROTATING, 1000, 0, 0, true, none, Gesture.CLOSED⟩) ∧
    handleInteraction ⟨[], [], ⟨0, 0, 0⟩, false, ⟨0, 0, 0⟩, 8⟩
        ⟨IState.ROTATING, 1000, 0, 0, true, none, Gesture.CLOSED⟩
        Gesture.PINCH (0, 0) none 1400 =
      (⟨[], [], ⟨0, 0, 0⟩, false, ⟨0, 0, 0⟩, 8⟩,
       ⟨IState.DRAW_WAIT, 1000, 1400, 0, false, some (0, 0),
        Gesture.PINCH⟩) :=
  ⟨(c9_pinch_debounce ⟨[], [], ⟨0, 0, 0⟩, false, ⟨0, 0, 0⟩, 8⟩
      ⟨IState.ROTATING, 1000, 0, 0, true, none, Gesture.CLOSED⟩ (0, 0) none
      1100 (Or.inl rfl)).1 (by norm_num),
   (c9_pinch_debounce ⟨[], [], ⟨0, 0, 0⟩, false, ⟨0, 0, 0⟩, 8⟩
      ⟨IState.ROTATING, 1000, 0, 0, true, none, Gesture.CLOSED⟩ (0, 0) none
      1400 (Or.inl rfl)).2 (by norm_num)⟩

theorem tail_append_left {α : Type} (l m : List α) (h : l ≠ []) :
    (l ++ m).tail = l.tail ++ m := by
  cases l with
  | nil => exact absurd rfl h
  | cons a l => rfl

/-- C10: the pinch-center position buffer is shared across hands.
`analyzeHand` always pushes the current hand's raw pinch midpoint into
the single per-recognizer buffer, so when two hands are processed in
one frame (the `map` of `update`), the second hand's smoothed
`pinchCenter` is the arithmetic mean of a buffer that still contains
the first hand's raw midpoint pushed moments earlier in the same
frame — there is no per-hand smoothing. -/
theorem c10_shared_pinch_buffer (buf : List V3) (h1 h2 : Hand)
    (hlen : buf.length ≤ 5) :
    rawPinchCenter h1 ∈
      (pinchStep (pinchStep buf (rawPinchCenter h1)).1
        (rawPinchCenter h2)).1 ∧
    (pinchStep (pinchStep buf (rawPinchCenter h1)).1
        (rawPinchCenter h2)).2 =
      meanV ((pinchStep (pinchStep buf (rawPinchCenter h1)).1
        (rawPinchCenter h2)).1) := by
  refine ⟨?_, rfl⟩
  have hstep : ∀ (b : List V3) (r : V3),
      (pinchStep b r).1 = if (b ++ [r]).length > 5 then (b ++ [r]).tail
        else b ++ [r] := fun b r => rfl
  by_cases h5 : buf.length ≤ 4
  · have hb1 : (pinchStep buf (rawPinchCenter h1)).1 =
        buf ++ [rawPinchCenter h1] := by
      rw [hstep, if_neg (by simp; omega)]
    rw [hb1, hstep]
    by_cases h4 : buf.length ≤ 3
    · rw [if_neg (by simp; omega)]
      simp
    · have hne : buf ++ [rawPinchCenter h1] ≠ [] := by simp
      rw [if_pos (by simp; omega)]
      rw [tail_append_left _ _ hne,
        tail_append_left buf [rawPinchCenter h1] (by
          intro h0
          rw [h0] at h4
          simp at h4)]
      simp
  · -- buf.length = 5: both steps shift
    have hne : buf ≠ [] := by
      intro h0
      rw [h0] at h5
      simp at h5
    have hb1 : (pinchStep buf (rawPinchCenter h1)).1 =
        buf.tail ++ [rawPinchCenter h1] := by
      rw [hstep, if_pos (by simp; omega), tail_append_left _ _ hne]
    have hlen5 : buf.length = 5 := by omega
    have htlen : buf.tail.length = buf.length - 1 := List.length_tail _
    have htne : buf.tail ++ [rawPinchCenter h1] ≠ [] := by simp
    have htne2 : buf.tail ≠ [] := by
      intro h0
      rw [h0] at htlen
      simp at htlen
      omega
    rw [hb1, hstep, if_pos (by simp [htlen]; omega)]
    rw [tail_append_left _ _ htne, tail_append_left _ _ htne2]
    simp

/-- C10 witness: two hands in one frame on an empty buffer — the first
hand's raw midpoint is inside the buffer over which the second hand's
smoothed center is averaged. -/
theorem c10_witness :
    rawPinchCenter (fun _ => (⟨1, 2, 3⟩ : V3)) ∈
      (pinchStep (pinchStep []
          (rawPinchCenter (fun _ => (⟨1, 2, 3⟩ : V3)))).1
        (rawPinchCenter (fun _ => (⟨4, 5, 6⟩ : V3)))).1 ∧
    (pinchStep (pinchStep []
        (rawPinchCenter (fun _ => (⟨1, 2, 3⟩ : V3)))).1
      (rawPinchCenter (fun _ => (⟨4, 5, 6⟩ : V3)))).2 =
      meanV ((pinchStep (pinchStep []
          (rawPinchCenter (fun _ => (⟨1, 2, 3⟩ : V3)))).1
        (rawPinchCenter (fun _ => (⟨4, 5, 6⟩ : V3)))).1) :=
  c10_shared_pinch_buffer [] (fun _ => ⟨1, 2, 3⟩) (fun _ => ⟨4, 5, 6⟩)
    (by simp)

end Volex
